import Mathlib

/-! The `kafka::producer`: connection management and write-completion dispatch.

A shallow embedding of `src/lib/kafka/producer.cpp`.

* The producer object is a record of its data members.  The `io_service`
  it is bound to is carried inside the record: the asynchronous operations
  the producer has issued and that have not completed yet (`pending`), the
  number of socket objects constructed so far (`sockets_made`, used to give
  every `new tcp::socket` an identity of its own) and the ordered log of
  every call the producer made on a collaborator (`trace`).
* A member function is a function from the producer to the producer after
  the call, paired with what the call returned (`Bool`) or how it ended
  (`completion`: returned normally, threw `boost::system::system_error`, or
  dereferenced a past-the-end resolver iterator).
* A resolver iterator is the list of the endpoints not yet consumed; the
  default constructed (end) iterator is the empty list.
* A `boost::function` error handler is `Option` of the identity of the
  callable, `none` being the empty function.  Calling it is logged in the
  trace; what the callable itself does is not part of this file.
* Completion of an asynchronous operation is an `event` chosen by the
  environment; `step` delivers it to the completion handler that was bound
  when the operation was issued.
-/

namespace kafka

/-- The `boost::system::error_code`: an integer value and the identity of its category. -/
structure error_code where
  value : Int
  category : Nat
  deriving DecidableEq, Repr

/-- The default constructed `boost::system::error_code()`: value 0 in the system category. -/
def error_code.success : error_code := ⟨0, 0⟩

/-- The boolean conversion of an error code (`if (error_code)`): true when the value is not 0. -/
def error_code.failed (ec : error_code) : Bool := ec.value != 0

/-- The `compression_type` handed to the constructor; not interpreted here. -/
abbrev compression_type := Nat

/-- The `boost::asio::ip::tcp::endpoint`: an address and a port. -/
structure endpoint where
  address : Nat
  port : Nat
  deriving DecidableEq, Repr

/-- The `connect_error_handler_function`: `none` is the empty `boost::function`. -/
abbrev connect_error_handler_function := Option Nat

/-- The `send_error_handler_function`: `none` is the empty `boost::function`. -/
abbrev send_error_handler_function := Option Nat

/-- The `message_ptr_t`: the reference to the message handed to a write. -/
abbrev message_ptr_t := Nat

/-- The `boost::asio::ip::tcp::socket` object: its identity and the peer it is connected to. -/
structure socket where
  id : Nat
  peer : Option endpoint
  deriving DecidableEq, Repr

/-- An asynchronous operation issued on the `io_service` together with the
arguments bound into its completion handler. -/
inductive operation where
  | resolve (hostname servicename : String) (error_handler : connect_error_handler_function)
  | connect (sock : Nat) (target : endpoint) (endpoints : List endpoint)
      (error_handler : connect_error_handler_function)
  | read (sock : Nat) (size : Nat)
  deriving DecidableEq, Repr

/-- A call made by the producer on one of its collaborators, as logged in the trace. -/
inductive action where
  | socket_new (sock : Nat)
  | socket_close (sock : Nat)
  | async_resolve (hostname servicename : String) (error_handler : connect_error_handler_function)
  | async_connect (sock : Nat) (target : endpoint)
  | async_read (sock : Nat) (size : Nat)
  | connect_error_handler (callee : Nat) (ec : error_code)
  | send_error_handler (callee : Nat) (ec : error_code) (msg : message_ptr_t)
  deriving DecidableEq, Repr

/-- The part of the `boost::asio::io_service` the producer works with. -/
structure io_service where
  pending : List operation
  sockets_made : Nat
  trace : List action
  deriving DecidableEq, Repr

/-- How a call of a `void` member function ended. -/
inductive completion where
  | returned
  | threw (ec : error_code)
  | undefined
  deriving DecidableEq, Repr

/-- The data members of `kafka::producer`. -/
structure producer where
  _io_service : io_service
  _connected : Bool
  _connecting : Bool
  _compression : compression_type
  _socket : socket
  deriving DecidableEq, Repr

/-- Issue an asynchronous operation: it becomes pending and the call is logged. -/
def io_service.issue (io : io_service) (op : operation) (act : action) : io_service :=
  { io with pending := io.pending ++ [op], trace := io.trace ++ [act] }

/-- Log a call on a collaborator that leaves nothing pending. -/
def io_service.log (io : io_service) (act : action) : io_service :=
  { io with trace := io.trace ++ [act] }

/-- The `new boost::asio::ip::tcp::socket(io_service)`: a socket with an identity no earlier
socket has, connected to nobody. -/
def io_service.new_socket (io : io_service) : io_service × socket :=
  ({ io with sockets_made := io.sockets_made + 1,
             trace := io.trace ++ [action.socket_new io.sockets_made] },
   { id := io.sockets_made, peer := none })

/-- The constructor `producer::producer` (lines 30-38). -/
def producer.construct (compression : compression_type) (io : io_service) : producer :=
  let made := io.new_socket
  { _io_service := made.1
    _connected := false
    _connecting := false
    _compression := compression
    _socket := made.2 }

/-- The member `producer::connect(hostname, servicename, error_handler)` (lines 52-72). -/
def producer.connect (p : producer) (hostname servicename : String)
    (error_handler : connect_error_handler_function) : producer × Bool :=
  if p._connecting then (p, false)
  else
    let p1 := { p with _connecting := true }
    let io := p1._io_service.issue (operation.resolve hostname servicename error_handler)
      (action.async_resolve hostname servicename error_handler)
    ({ p1 with _io_service := io }, true)

/-- The member `producer::close` (lines 74-83). -/
def producer.close (p : producer) : producer × Bool :=
  if p._connecting then (p, false)
  else
    let p1 := { p with _connected := false }
    let p2 := { p1 with _io_service := p1._io_service.log (action.socket_close p1._socket.id),
                        _socket := { p1._socket with peer := none } }
    let made := p2._io_service.new_socket
    let p3 := { p2 with _io_service := made.1, _socket := made.2 }
    (p3, true)

/-- The member `producer::is_connected` (lines 85-88). -/
def producer.is_connected (p : producer) : Bool := p._connected

/-- The member `producer::is_connecting` (lines 90-93). -/
def producer.is_connecting (p : producer) : Bool := p._connecting

/-- The member `producer::handle_resolve` (lines 95-123). -/
def producer.handle_resolve (p : producer) (ec : error_code) (endpoints : List endpoint)
    (error_handler : connect_error_handler_function) : producer × completion :=
  if !ec.failed then
    match endpoints with
    | [] => (p, completion.undefined)
    | target :: next =>
      let io := p._io_service.issue (operation.connect p._socket.id target next error_handler)
        (action.async_connect p._socket.id target)
      ({ p with _io_service := io }, completion.returned)
  else
    let p1 := { p with _connecting := false }
    match error_handler with
    | none => (p1, completion.threw ec)
    | some callee =>
      ({ p1 with _io_service := p1._io_service.log (action.connect_error_handler callee ec) },
       completion.returned)

/-- The member `producer::handle_connect` (lines 125-164). -/
def producer.handle_connect (p : producer) (ec : error_code) (endpoints : List endpoint)
    (error_handler : connect_error_handler_function) : producer × completion :=
  if !ec.failed then
    let p1 := { p with _connecting := false }
    let p2 := { p1 with _connected := true }
    let io := p2._io_service.issue (operation.read p2._socket.id 1)
      (action.async_read p2._socket.id 1)
    ({ p2 with _io_service := io }, completion.returned)
  else if endpoints != [] then
    p.handle_resolve error_code.success endpoints error_handler
  else
    let p1 := { p with _connecting := false }
    match error_handler with
    | none => (p1, completion.threw ec)
    | some callee =>
      ({ p1 with _io_service := p1._io_service.log (action.connect_error_handler callee ec) },
       completion.returned)

/-- The member `producer::handle_write_request` (lines 166-183). -/
def producer.handle_write_request (p : producer) (ec : error_code) (_bytes_transferred : Nat)
    (msg_ptr : message_ptr_t) (_data : List Nat)
    (error_handler : send_error_handler_function) : producer × completion :=
  if ec.failed then
    match error_handler with
    | none => (p, completion.threw ec)
    | some callee =>
      ({ p with _io_service := p._io_service.log (action.send_error_handler callee ec msg_ptr) },
       completion.returned)
  else (p, completion.returned)

/-! ## The environment: completion of asynchronous operations -/

/-- Whether the operation is an `async_resolve` or an `async_connect`, the two operations whose
completion handlers are `handle_resolve` and `handle_connect`. -/
def operation.is_setup : operation → Bool
  | operation.resolve _ _ _ => true
  | operation.connect _ _ _ _ => true
  | operation.read _ _ => false

/-- The number of pending `async_resolve` and `async_connect` operations. -/
def outstanding (ops : List operation) : Nat := (ops.filter operation.is_setup).length

/-- Take the oldest pending `async_resolve` out of the pending operations: the handler bound
into its completion, and the operations that stay pending. -/
def take_resolve : List operation → Option (connect_error_handler_function × List operation)
  | [] => none
  | operation.resolve _ _ error_handler :: ops => some (error_handler, ops)
  | op :: ops =>
    match take_resolve ops with
    | none => none
    | some (found, rest) => some (found, op :: rest)

/-- Take the oldest pending `async_connect` out of the pending operations: the socket it runs
on, its target, the arguments bound into its completion (the advanced iterator `++endpoints`
and the handler), and the operations that stay pending. -/
def take_connect : List operation →
    Option ((Nat × endpoint × List endpoint × connect_error_handler_function) × List operation)
  | [] => none
  | operation.connect sock target next error_handler :: ops =>
    some ((sock, target, next, error_handler), ops)
  | op :: ops =>
    match take_connect ops with
    | none => none
    | some (found, rest) => some (found, op :: rest)

/-- What can happen to a producer: a call of a public member function by the owner, or the
completion of an asynchronous operation delivered by the `io_service`. -/
inductive event where
  | connect (hostname servicename : String) (error_handler : connect_error_handler_function)
  | close
  | resolved (ec : error_code) (endpoints : List endpoint)
  | connected (ec : error_code)
  | written (ec : error_code) (bytes_transferred : Nat) (msg_ptr : message_ptr_t)
      (data : List Nat) (error_handler : send_error_handler_function)
  deriving DecidableEq, Repr

/-- Replace the pending operations of the producer. -/
def producer.set_pending (p : producer) (ops : List operation) : producer :=
  { p with _io_service := { p._io_service with pending := ops } }

/-- One event.  `none` when the event cannot happen: there is no pending operation of that
kind to complete, or a resolution reported as successful carries no endpoint (a successful
`async_resolve` yields at least one entry).  A connect that completes without error leaves
the socket it ran on connected to its target. -/
def step (p : producer) : event → Option (producer × completion)
  | event.connect hostname servicename error_handler =>
    some ((p.connect hostname servicename error_handler).1, completion.returned)
  | event.close => some (p.close.1, completion.returned)
  | event.resolved ec endpoints =>
    match take_resolve p._io_service.pending with
    | none => none
    | some (error_handler, rest) =>
      if !ec.failed && endpoints.isEmpty then none
      else some ((p.set_pending rest).handle_resolve ec endpoints error_handler)
  | event.connected ec =>
    match take_connect p._io_service.pending with
    | none => none
    | some ((sock, target, next, error_handler), rest) =>
      let p1 := p.set_pending rest
      let p2 := if !ec.failed && sock == p1._socket.id
        then { p1 with _socket := { p1._socket with peer := some target } } else p1
      some (p2.handle_connect ec next error_handler)
  | event.written ec bytes_transferred msg_ptr data error_handler =>
    some (p.handle_write_request ec bytes_transferred msg_ptr data error_handler)

/-- The states a producer can be in: those of a freshly constructed producer (nothing pending
yet) and those any event leads to from such a state, also when the event ended in a throw. -/
inductive reachable : producer → Prop where
  | init (compression : compression_type) (io : io_service) (h : io.pending = []) :
      reachable (producer.construct compression io)
  | next (p : producer) (e : event) (r : producer × completion) :
      reachable p → step p e = some r → reachable r.1

/-- The states reachable when the owner calls `connect` only on a producer that is not
connected (it calls `close` first). -/
inductive reachable_closed_first : producer → Prop where
  | init (compression : compression_type) (io : io_service) (h : io.pending = []) :
      reachable_closed_first (producer.construct compression io)
  | next (p : producer) (e : event) (r : producer × completion) :
      reachable_closed_first p →
      (∀ hostname servicename error_handler,
        e = event.connect hostname servicename error_handler → p._connected = false) →
      step p e = some r → reachable_closed_first r.1

/-- The failover loop as the `io_service` runs it: as long as an `async_connect` is pending,
complete it, the `k`-th completion with the error code `net k`, and stop when none is
pending or a completion handler throws.  `none` when the fuel runs out first. -/
def drive (net : Nat → error_code) : Nat → Nat → producer → Option (producer × completion)
  | 0, _, _ => none
  | fuel + 1, k, p =>
    match step p (event.connected (net k)) with
    | none => some (p, completion.returned)
    | some (p1, completion.returned) => drive net fuel (k + 1) p1
    | some (p1, c) => some (p1, c)

/-- A whole connect run: the call of `connect`, the completion of the resolution with
`resolve_ec` and `endpoints`, and the failover loop, in which the `k`-th connect attempt
(counted from 0) completes with `net k`. -/
def connect_run (p : producer) (hostname servicename : String)
    (error_handler : connect_error_handler_function) (resolve_ec : error_code)
    (endpoints : List endpoint) (net : Nat → error_code) (fuel : Nat) :
    Option (producer × completion) :=
  match step (p.connect hostname servicename error_handler).1
      (event.resolved resolve_ec endpoints) with
  | none => none
  | some (p1, completion.returned) => drive net fuel 0 p1
  | some (p1, c) => some (p1, c)

/-- The targets of the connect attempts in a trace, in the order they were issued. -/
def connect_attempts : List action → List endpoint
  | [] => []
  | action.async_connect _ target :: acts => target :: connect_attempts acts
  | _ :: acts => connect_attempts acts

/-- The prefix of the candidates up to and including the first one whose attempt succeeds,
the whole list if none does; the first candidate is the `k`-th attempt. -/
def up_to_first_success (net : Nat → error_code) : Nat → List endpoint → List endpoint
  | _, [] => []
  | k, e :: es => if (net k).failed then e :: up_to_first_success net (k + 1) es else [e]

/-! ## Sample values -/

/-- An `io_service` nothing was issued on yet. -/
def sample_io : io_service := { pending := [], sockets_made := 0, trace := [] }

/-- The error code of a refused connection (`ECONNREFUSED`, system category). -/
def refused : error_code := ⟨111, 0⟩

/-- The error code of a host that was not found (`host_not_found`, netdb category). -/
def host_not_found : error_code := ⟨1, 1⟩

/-- A first resolved address of the broker. -/
def broker_a : endpoint := ⟨1, 9092⟩

/-- A second resolved address of the broker. -/
def broker_b : endpoint := ⟨2, 9092⟩

/-- A freshly constructed producer. -/
def sample_producer : producer := producer.construct 0 sample_io

/-- A producer in the middle of a connect: `connect` was called and the resolution is pending. -/
def sample_connecting : producer := (sample_producer.connect "broker" "9092" (some 7)).1

/-- A network on which the first attempt is refused and every later one succeeds. -/
def second_succeeds : Nat → error_code := fun k => if k < 1 then refused else error_code.success

/-- A network on which every attempt is refused. -/
def all_refused : Nat → error_code := fun _ => refused


/-- The producer after one event; unchanged when the event cannot happen. -/
def after (p : producer) (e : event) : producer :=
  match step p e with
  | some r => r.1
  | none => p

/-- A producer that is connected: constructed, `connect` called, the resolution completed
with one candidate, the connect attempt on it completed without error. -/
def sample_connected : producer :=
  after (after (after sample_producer (event.connect "broker" "9092" none))
    (event.resolved error_code.success [broker_a])) (event.connected error_code.success)

/-- The connected producer after its owner called `connect` once more without closing. -/
def sample_reconnecting : producer :=
  after sample_connected (event.connect "broker" "9092" none)

/-! ## The public operations and the completion handlers, one call at a time -/

/-- C4: `connect(host, service, handler)` returns false exactly when `_connecting` is true on
entry.  When it returns false the producer is unchanged (nothing is issued, nothing logged);
when it returns true the only changes are that `_connecting` is true, that one
`async_resolve` for (host, service) bound to the supplied handler is pending, and that this
one call is the only thing added to the trace: no handler call, no connect attempt. -/
theorem connect_contract (p : producer) (hostname servicename : String)
    (error_handler : connect_error_handler_function) :
    ((p.connect hostname servicename error_handler).2 = false ↔ p._connecting = true) ∧
    ((p.connect hostname servicename error_handler).2 = false →
      (p.connect hostname servicename error_handler).1 = p) ∧
    ((p.connect hostname servicename error_handler).2 = true →
      (p.connect hostname servicename error_handler).1 =
        { p with
          _connecting := true
          _io_service :=
            { p._io_service with
              pending := p._io_service.pending ++
                [operation.resolve hostname servicename error_handler]
              trace := p._io_service.trace ++
                [action.async_resolve hostname servicename error_handler] } }) := by
  unfold producer.connect
  cases hc : p._connecting <;> simp [io_service.issue]

/-- C5: `close()` on a producer whose `_connecting` is true returns false and leaves the whole
producer as it was: the flags, the socket it owns, the pending operations and the trace (the
socket is neither closed nor replaced). -/
theorem close_rejected_while_connecting (p : producer) (h : p._connecting = true) :
    p.close.2 = false ∧ p.close.1 = p := by
  unfold producer.close
  simp [h]

/-- Witness of C5 on a producer whose resolution is pending. -/
theorem close_rejected_while_connecting_witness :
    sample_connecting._connecting = true ∧
    sample_connecting.close.2 = false ∧ sample_connecting.close.1 = sample_connecting :=
  ⟨by decide, close_rejected_while_connecting sample_connecting (by decide)⟩

/-- C7: when the resolve completion carries an error, `handle_resolve` clears `_connecting`,
leaves `_connected`, the socket and the pending operations as they were (no connect attempt is
issued), and reports the error code once: with a handler, the trace grows by exactly one call
of that handler with that code and the function returns; with the empty handler, the trace is
unchanged and a `system_error` with that code is thrown. -/
theorem handle_resolve_failure (p : producer) (ec : error_code) (endpoints : List endpoint)
    (error_handler : connect_error_handler_function) (h : ec.failed = true) :
    (p.handle_resolve ec endpoints error_handler).1._connecting = false ∧
    (p.handle_resolve ec endpoints error_handler).1._connected = p._connected ∧
    (p.handle_resolve ec endpoints error_handler).1._socket = p._socket ∧
    (p.handle_resolve ec endpoints error_handler).1._io_service.pending =
      p._io_service.pending ∧
    (∀ callee, error_handler = some callee →
      (p.handle_resolve ec endpoints error_handler).1._io_service.trace =
        p._io_service.trace ++ [action.connect_error_handler callee ec] ∧
      (p.handle_resolve ec endpoints error_handler).2 = completion.returned) ∧
    (error_handler = none →
      (p.handle_resolve ec endpoints error_handler).1._io_service.trace =
        p._io_service.trace ∧
      (p.handle_resolve ec endpoints error_handler).2 = completion.threw ec) := by
  unfold producer.handle_resolve
  cases error_handler <;> simp [h, io_service.log]

/-- Witness of C7: a resolution that fails with `host_not_found`, with a handler supplied. -/
theorem handle_resolve_failure_witness :
    host_not_found.failed = true ∧
    (sample_connecting.handle_resolve host_not_found [] (some 7)).1._connecting = false ∧
    (sample_connecting.handle_resolve host_not_found [] (some 7)).1._io_service.trace =
      sample_connecting._io_service.trace ++ [action.connect_error_handler 7 host_not_found] ∧
    (sample_connecting.handle_resolve host_not_found [] (some 7)).2 = completion.returned :=
  have key := handle_resolve_failure sample_connecting host_not_found [] (some 7) (by decide)
  ⟨by decide, key.1, (key.2.2.2.2.1 7 rfl).1, (key.2.2.2.2.1 7 rfl).2⟩

/-- C8: `handle_write_request` calls the write error handler exactly when the completion
carries an error and a handler was supplied: in that case the trace grows by exactly one call
of that handler with that error code and the message reference of the write, and the function
returns; in every other case the trace is unchanged.  The flags, the socket and the pending
operations are never modified. -/
theorem handle_write_request_dispatch (p : producer) (ec : error_code) (bytes_transferred : Nat)
    (msg_ptr : message_ptr_t) (data : List Nat) (error_handler : send_error_handler_function) :
    (∀ callee, ec.failed = true → error_handler = some callee →
      (p.handle_write_request ec bytes_transferred msg_ptr data error_handler).1._io_service.trace
        = p._io_service.trace ++ [action.send_error_handler callee ec msg_ptr] ∧
      (p.handle_write_request ec bytes_transferred msg_ptr data error_handler).2
        = completion.returned) ∧
    (ec.failed = false ∨ error_handler = none →
      (p.handle_write_request ec bytes_transferred msg_ptr data error_handler).1._io_service.trace
        = p._io_service.trace) ∧
    (p.handle_write_request ec bytes_transferred msg_ptr data error_handler).1._connecting
      = p._connecting ∧
    (p.handle_write_request ec bytes_transferred msg_ptr data error_handler).1._connected
      = p._connected ∧
    (p.handle_write_request ec bytes_transferred msg_ptr data error_handler).1._socket
      = p._socket ∧
    (p.handle_write_request ec bytes_transferred msg_ptr data error_handler).1._io_service.pending
      = p._io_service.pending := by
  unfold producer.handle_write_request
  cases error_handler <;> cases hf : ec.failed <;> simp [io_service.log]

/-- C9: `handle_write_request` throws exactly when the completion carries an error and the
handler is empty, and what it throws is a `system_error` with exactly that error code; a
completion without error returns normally and leaves the producer, its trace included,
unchanged (no handler call), whether or not a handler was supplied. -/
theorem handle_write_request_throw (p : producer) (ec : error_code) (bytes_transferred : Nat)
    (msg_ptr : message_ptr_t) (data : List Nat) (error_handler : send_error_handler_function) :
    ((∃ thrown, (p.handle_write_request ec bytes_transferred msg_ptr data error_handler).2
        = completion.threw thrown) ↔ (ec.failed = true ∧ error_handler = none)) ∧
    (ec.failed = true → error_handler = none →
      (p.handle_write_request ec bytes_transferred msg_ptr data error_handler).2
        = completion.threw ec) ∧
    (ec.failed = false →
      p.handle_write_request ec bytes_transferred msg_ptr data error_handler
        = (p, completion.returned)) := by
  unfold producer.handle_write_request
  cases error_handler <;> cases hf : ec.failed <;> simp

/-! ## Pending operations -/

theorem outstanding_append (ops : List operation) (op : operation) :
    outstanding (ops ++ [op]) = outstanding ops + (if op.is_setup then 1 else 0) := by
  unfold outstanding
  cases h : op.is_setup <;> simp [List.filter_append, h]

theorem outstanding_cons (op : operation) (ops : List operation) :
    outstanding (op :: ops) = (if op.is_setup then 1 else 0) + outstanding ops := by
  unfold outstanding
  cases h : op.is_setup <;> simp [List.filter_cons, h, Nat.add_comm]

theorem take_connect_idle (ops : List operation) (h : outstanding ops = 0) :
    take_connect ops = none := by
  induction ops with
  | nil => rfl
  | cons op ops ih =>
    rw [outstanding_cons] at h
    cases op with
    | resolve a b c => simp [operation.is_setup] at h
    | connect a b c d => simp [operation.is_setup] at h
    | read a b =>
      simp [operation.is_setup] at h
      simp [take_connect, ih h]

theorem take_resolve_idle (ops : List operation) (h : outstanding ops = 0) :
    take_resolve ops = none := by
  induction ops with
  | nil => rfl
  | cons op ops ih =>
    rw [outstanding_cons] at h
    cases op with
    | resolve a b c => simp [operation.is_setup] at h
    | connect a b c d => simp [operation.is_setup] at h
    | read a b =>
      simp [operation.is_setup] at h
      simp [take_resolve, ih h]

theorem take_connect_last (ops : List operation) (h : outstanding ops = 0) (sock : Nat)
    (target : endpoint) (next : List endpoint) (handler : connect_error_handler_function) :
    take_connect (ops ++ [operation.connect sock target next handler]) =
      some ((sock, target, next, handler), ops) := by
  induction ops with
  | nil => rfl
  | cons op ops ih =>
    rw [outstanding_cons] at h
    cases op with
    | resolve a b c => simp [operation.is_setup] at h
    | connect a b c d => simp [operation.is_setup] at h
    | read a b =>
      simp [operation.is_setup] at h
      simp [take_connect, ih h]

theorem take_resolve_last (ops : List operation) (h : outstanding ops = 0)
    (hostname servicename : String) (handler : connect_error_handler_function) :
    take_resolve (ops ++ [operation.resolve hostname servicename handler]) =
      some (handler, ops) := by
  induction ops with
  | nil => rfl
  | cons op ops ih =>
    rw [outstanding_cons] at h
    cases op with
    | resolve a b c => simp [operation.is_setup] at h
    | connect a b c d => simp [operation.is_setup] at h
    | read a b =>
      simp [operation.is_setup] at h
      simp [take_resolve, ih h]

theorem take_connect_outstanding (ops rest : List operation)
    (found : Nat × endpoint × List endpoint × connect_error_handler_function)
    (h : take_connect ops = some (found, rest)) : outstanding ops = outstanding rest + 1 := by
  induction ops generalizing rest with
  | nil => simp [take_connect] at h
  | cons op ops ih =>
    cases op with
    | connect a b c d =>
      simp [take_connect] at h
      rw [outstanding_cons, ← h.2]
      simp [operation.is_setup, Nat.add_comm]
    | resolve a b c =>
      simp only [take_connect] at h
      cases hr : take_connect ops with
      | none => simp [hr] at h
      | some fr =>
        obtain ⟨f, r⟩ := fr
        simp [hr] at h
        rw [outstanding_cons, ← h.2, outstanding_cons, ih r (by rw [hr, h.1])]
        simp [operation.is_setup]; omega
    | read a b =>
      simp only [take_connect] at h
      cases hr : take_connect ops with
      | none => simp [hr] at h
      | some fr =>
        obtain ⟨f, r⟩ := fr
        simp [hr] at h
        rw [outstanding_cons, ← h.2, outstanding_cons, ih r (by rw [hr, h.1])]
        simp [operation.is_setup]

theorem take_resolve_outstanding (ops rest : List operation)
    (found : connect_error_handler_function)
    (h : take_resolve ops = some (found, rest)) : outstanding ops = outstanding rest + 1 := by
  induction ops generalizing rest with
  | nil => simp [take_resolve] at h
  | cons op ops ih =>
    cases op with
    | resolve a b c =>
      simp [take_resolve] at h
      rw [outstanding_cons, ← h.2]
      simp [operation.is_setup, Nat.add_comm]
    | connect a b c d =>
      simp only [take_resolve] at h
      cases hr : take_resolve ops with
      | none => simp [hr] at h
      | some fr =>
        obtain ⟨f, r⟩ := fr
        simp [hr] at h
        rw [outstanding_cons, ← h.2, outstanding_cons, ih r (by rw [hr, h.1])]
        simp [operation.is_setup]; omega
    | read a b =>
      simp only [take_resolve] at h
      cases hr : take_resolve ops with
      | none => simp [hr] at h
      | some fr =>
        obtain ⟨f, r⟩ := fr
        simp [hr] at h
        rw [outstanding_cons, ← h.2, outstanding_cons, ih r (by rw [hr, h.1])]
        simp [operation.is_setup]

/-! ## One completion of a connect attempt -/

theorem success_not_failed : error_code.success.failed = false := rfl

theorem step_connected (p : producer) (ops : List operation) (hops : outstanding ops = 0)
    (c : endpoint) (cs : List endpoint) (handler : connect_error_handler_function)
    (hp : p._io_service.pending = ops ++ [operation.connect p._socket.id c cs handler])
    (ec : error_code) :
    step p (event.connected ec) =
      some ((if !ec.failed
          then { p.set_pending ops with _socket := { id := p._socket.id, peer := some c } }
          else p.set_pending ops).handle_connect ec cs handler) := by
  unfold step
  simp only [hp, take_connect_last ops hops]
  simp [producer.set_pending]

theorem step_connected_success (p : producer) (ops : List operation) (hops : outstanding ops = 0)
    (c : endpoint) (cs : List endpoint) (handler : connect_error_handler_function)
    (hp : p._io_service.pending = ops ++ [operation.connect p._socket.id c cs handler])
    (ec : error_code) (hec : ec.failed = false) :
    step p (event.connected ec) = some
      ({ _io_service :=
          { pending := ops ++ [operation.read p._socket.id 1]
            sockets_made := p._io_service.sockets_made
            trace := p._io_service.trace ++ [action.async_read p._socket.id 1] }
         _connected := true
         _connecting := false
         _compression := p._compression
         _socket := { id := p._socket.id, peer := some c } }, completion.returned) := by
  rw [step_connected p ops hops c cs handler hp ec]
  simp [hec, producer.handle_connect, producer.set_pending, io_service.issue]

theorem step_connected_next (p : producer) (ops : List operation) (hops : outstanding ops = 0)
    (c c1 : endpoint) (cs : List endpoint) (handler : connect_error_handler_function)
    (hp : p._io_service.pending = ops ++ [operation.connect p._socket.id c (c1 :: cs) handler])
    (ec : error_code) (hec : ec.failed = true) :
    step p (event.connected ec) = some
      ({ p with
          _io_service :=
            { pending := ops ++ [operation.connect p._socket.id c1 cs handler]
              sockets_made := p._io_service.sockets_made
              trace := p._io_service.trace ++ [action.async_connect p._socket.id c1] } },
        completion.returned) := by
  rw [step_connected p ops hops c (c1 :: cs) handler hp ec]
  simp [hec, producer.handle_connect, producer.handle_resolve, producer.set_pending,
    io_service.issue, success_not_failed]

theorem step_connected_last_throw (p : producer) (ops : List operation)
    (hops : outstanding ops = 0) (c : endpoint)
    (hp : p._io_service.pending = ops ++ [operation.connect p._socket.id c [] none])
    (ec : error_code) (hec : ec.failed = true) :
    step p (event.connected ec) = some
      ({ p with
          _connecting := false
          _io_service := { p._io_service with pending := ops } }, completion.threw ec) := by
  rw [step_connected p ops hops c [] none hp ec]
  simp [hec, producer.handle_connect, producer.set_pending]

theorem step_connected_last_handler (p : producer) (ops : List operation)
    (hops : outstanding ops = 0) (c : endpoint) (callee : Nat)
    (hp : p._io_service.pending = ops ++ [operation.connect p._socket.id c [] (some callee)])
    (ec : error_code) (hec : ec.failed = true) :
    step p (event.connected ec) = some
      ({ p with
          _connecting := false
          _io_service :=
            { pending := ops
              sockets_made := p._io_service.sockets_made
              trace := p._io_service.trace ++ [action.connect_error_handler callee ec] } },
        completion.returned) := by
  rw [step_connected p ops hops c [] (some callee) hp ec]
  simp [hec, producer.handle_connect, producer.set_pending, io_service.log]

theorem step_connected_idle (p : producer) (h : outstanding p._io_service.pending = 0)
    (ec : error_code) : step p (event.connected ec) = none := by
  unfold step
  simp [take_connect_idle _ h]

theorem drive_idle (net : Nat → error_code) (fuel k : Nat) (p : producer)
    (h : outstanding p._io_service.pending = 0) :
    drive net (fuel + 1) k p = some (p, completion.returned) := by
  simp [drive, step_connected_idle p h]

/-! ## The failover loop -/

/-- The failover loop from a state in which the attempt on `c` is the only outstanding
operation and `cs` are the candidates after it: with more than `cs.length + 1` units of fuel
the loop ends, after `j` failed attempts, either in the success of attempt `k + j` or, all
candidates used up, in the failure of the last one. -/
theorem drive_failover (net : Nat → error_code) (handler : connect_error_handler_function)
    (ops : List operation) (hops : outstanding ops = 0) :
    ∀ (cs : List endpoint) (c : endpoint) (k : Nat) (p : producer),
      p._io_service.pending = ops ++ [operation.connect p._socket.id c cs handler] →
      ∃ (r : producer × completion) (j : Nat),
        j ≤ cs.length ∧
        (∀ fuel, cs.length + 1 < fuel → drive net fuel k p = some r) ∧
        (∀ i, i < j → (net (k + i)).failed = true) ∧
        r.1._socket.id = p._socket.id ∧
        r.1._compression = p._compression ∧
        r.1._io_service.sockets_made = p._io_service.sockets_made ∧
        r.1._connecting = false ∧
        (((net (k + j)).failed = false ∧ r.2 = completion.returned ∧
            r.1._connected = true ∧ r.1._socket.peer = (c :: cs)[j]? ∧
            r.1._io_service.pending = ops ++ [operation.read p._socket.id 1] ∧
            r.1._io_service.trace = p._io_service.trace ++
              (cs.take j).map (action.async_connect p._socket.id) ++
              [action.async_read p._socket.id 1]) ∨
         ((net (k + j)).failed = true ∧ j = cs.length ∧
            r.1._connected = p._connected ∧ r.1._socket = p._socket ∧
            r.1._io_service.pending = ops ∧
            ((handler = none ∧ r.2 = completion.threw (net (k + j)) ∧
                r.1._io_service.trace = p._io_service.trace ++
                  (cs.take j).map (action.async_connect p._socket.id)) ∨
             (∃ callee, handler = some callee ∧ r.2 = completion.returned ∧
                r.1._io_service.trace = p._io_service.trace ++
                  (cs.take j).map (action.async_connect p._socket.id) ++
                  [action.connect_error_handler callee (net (k + j))])))) := by
  intro cs
  induction cs with
  | nil =>
    intro c k p hp
    cases hk : (net k).failed with
    | false =>
      have hs := step_connected_success p ops hops c [] handler hp (net k) hk
      obtain ⟨q, hq, hs⟩ : ∃ q, q = _ ∧ step p (event.connected (net k)) =
          some (q, completion.returned) := ⟨_, rfl, hs⟩
      refine ⟨(q, completion.returned), 0, Nat.le_refl _, ?_, ?_, ?_⟩
      · intro fuel hfuel
        obtain ⟨f, rfl⟩ : ∃ f, fuel = f + 1 + 1 := ⟨fuel - 2, by simp at hfuel; omega⟩
        rw [drive]
        simp only [hs]
        exact drive_idle net f (k + 1) _
          (by subst hq; simp [outstanding_append, hops, operation.is_setup])
      · intro i hi; omega
      · subst hq; simp [hk]
    | true =>
      cases handler with
      | none =>
        have hs := step_connected_last_throw p ops hops c hp (net k) hk
        obtain ⟨q, hq, hs⟩ : ∃ q, q = _ ∧ step p (event.connected (net k)) =
            some (q, completion.threw (net k)) := ⟨_, rfl, hs⟩
        refine ⟨(q, completion.threw (net k)), 0, Nat.le_refl _, ?_, ?_, ?_⟩
        · intro fuel hfuel
          obtain ⟨f, rfl⟩ : ∃ f, fuel = f + 1 := ⟨fuel - 1, by simp at hfuel; omega⟩
          rw [drive]
          simp only [hs]
        · intro i hi; omega
        · subst hq; simp [hk]
      | some callee =>
        have hs := step_connected_last_handler p ops hops c callee hp (net k) hk
        obtain ⟨q, hq, hs⟩ : ∃ q, q = _ ∧ step p (event.connected (net k)) =
            some (q, completion.returned) := ⟨_, rfl, hs⟩
        refine ⟨(q, completion.returned), 0, Nat.le_refl _, ?_, ?_, ?_⟩
        · intro fuel hfuel
          obtain ⟨f, rfl⟩ : ∃ f, fuel = f + 1 + 1 := ⟨fuel - 2, by simp at hfuel; omega⟩
          rw [drive]
          simp only [hs]
          exact drive_idle net f (k + 1) _ (by subst hq; simp [hops])
        · intro i hi; omega
        · subst hq; simp [hk]
  | cons c1 cs ih =>
    intro c k p hp
    cases hk : (net k).failed with
    | false =>
      have hs := step_connected_success p ops hops c (c1 :: cs) handler hp (net k) hk
      obtain ⟨q, hq, hs⟩ : ∃ q, q = _ ∧ step p (event.connected (net k)) =
          some (q, completion.returned) := ⟨_, rfl, hs⟩
      refine ⟨(q, completion.returned), 0, Nat.zero_le _, ?_, ?_, ?_⟩
      · intro fuel hfuel
        obtain ⟨f, rfl⟩ : ∃ f, fuel = f + 1 + 1 := ⟨fuel - 2, by simp at hfuel; omega⟩
        rw [drive]
        simp only [hs]
        exact drive_idle net f (k + 1) _
          (by subst hq; simp [outstanding_append, hops, operation.is_setup])
      · intro i hi; omega
      · subst hq; simp [hk]
    | true =>
      have hs := step_connected_next p ops hops c c1 cs handler hp (net k) hk
      obtain ⟨r, j, hj, hdrive, hfail, hid, hcomp, hmade, hconn, hend⟩ :=
        ih c1 (k + 1)
          { p with
            _io_service :=
              { pending := ops ++ [operation.connect p._socket.id c1 cs handler]
                sockets_made := p._io_service.sockets_made
                trace := p._io_service.trace ++ [action.async_connect p._socket.id c1] } }
          rfl
      refine ⟨r, j + 1, by simpa using hj, ?_, ?_, hid, hcomp, hmade, hconn, ?_⟩
      · intro fuel hfuel
        obtain ⟨f, rfl⟩ : ∃ f, fuel = f + 1 := ⟨fuel - 1, by omega⟩
        rw [drive]
        simp only [hs]
        exact hdrive f (by simp at hfuel ⊢; omega)
      · intro i hi
        cases i with
        | zero => simpa using hk
        | succ i =>
          have := hfail i (by omega)
          rwa [show k + (i + 1) = k + 1 + i by omega]
      · have hidx : k + (j + 1) = k + 1 + j := by omega
        rw [hidx]
        simpa [List.take_succ_cons, List.append_assoc] using hend

/-! ## Invariants of the reachable states -/

/-- In a reachable state exactly one resolve or connect is outstanding while `_connecting` is
true, none is while it is false, and the socket the producer owns is one that was made. -/
theorem reachable_invariant (p : producer) (h : reachable p) :
    outstanding p._io_service.pending = (if p._connecting then 1 else 0) ∧
    p._socket.id < p._io_service.sockets_made := by
  induction h with
  | init compression io hio =>
    simp [producer.construct, io_service.new_socket, hio, outstanding]
  | next p e r _ hstep ih =>
    obtain ⟨ihp, ihs⟩ := ih
    cases e with
    | connect hostname servicename handler =>
      simp only [step, Option.some.injEq] at hstep
      subst hstep
      cases hc : p._connecting
      · simp [producer.connect, hc, io_service.issue, outstanding_append, operation.is_setup,
          ihs] at ihp ⊢
        exact ihp
      · simp [producer.connect, hc, ihs] at ihp ⊢
        exact ihp
    | close =>
      simp only [step, Option.some.injEq] at hstep
      subst hstep
      cases hc : p._connecting
      · simp [producer.close, hc, io_service.log, io_service.new_socket] at ihp ⊢
        exact ihp
      · simp [producer.close, hc, ihs] at ihp ⊢
        exact ihp
    | resolved ec endpoints =>
      simp only [step] at hstep
      cases ht : take_resolve p._io_service.pending with
      | none => simp [ht] at hstep
      | some fr =>
        obtain ⟨handler, rest⟩ := fr
        have hout := take_resolve_outstanding _ _ _ ht
        have hconn : p._connecting = true := by
          cases hc : p._connecting
          · simp [hc] at ihp; omega
          · rfl
        have hrest : outstanding rest = 0 := by simp [hconn] at ihp; omega
        simp only [ht] at hstep
        split at hstep
        · simp at hstep
        · simp only [Option.some.injEq] at hstep
          subst hstep
          cases hf : ec.failed
          · cases endpoints with
            | nil => simp [hf] at *
            | cons c cs =>
              simp [producer.handle_resolve, hf, producer.set_pending, io_service.issue,
                outstanding_append, operation.is_setup, hrest, hconn, ihs]
          · cases handler <;>
              simp [producer.handle_resolve, hf, producer.set_pending, io_service.log,
                hrest, ihs]
    | connected ec =>
      simp only [step] at hstep
      cases ht : take_connect p._io_service.pending with
      | none => simp [ht] at hstep
      | some fr =>
        obtain ⟨⟨sock, target, next, handler⟩, rest⟩ := fr
        have hout := take_connect_outstanding _ _ _ ht
        have hconn : p._connecting = true := by
          cases hc : p._connecting
          · simp [hc] at ihp; omega
          · rfl
        have hrest : outstanding rest = 0 := by simp [hconn] at ihp; omega
        simp only [ht, Option.some.injEq] at hstep
        subst hstep
        cases hf : ec.failed
        · by_cases hsock : sock = p._socket.id <;>
            simp [producer.handle_connect, hf, producer.set_pending, io_service.issue,
              outstanding_append, operation.is_setup, hrest, ihs, hsock]
        · cases next with
          | nil =>
            cases handler <;>
              simp [producer.handle_connect, hf, producer.set_pending, io_service.log,
                hrest, ihs]
          | cons c cs =>
            simp [producer.handle_connect, producer.handle_resolve, success_not_failed, hf,
              producer.set_pending, io_service.issue, outstanding_append, operation.is_setup,
              hrest, hconn, ihs]
    | written ec bytes msg data handler =>
      simp only [step, Option.some.injEq] at hstep
      subst hstep
      cases hf : ec.failed <;> cases handler <;>
        simp [producer.handle_write_request, hf, io_service.log, ihs, ihp]

theorem reachable_idle (p : producer) (h : reachable p) (hc : p._connecting = false) :
    outstanding p._io_service.pending = 0 := by
  have := (reachable_invariant p h).1
  simpa [hc] using this

/-! ## A whole connect run -/

theorem connect_run_eq (p : producer) (hidle : outstanding p._io_service.pending = 0)
    (hc : p._connecting = false) (hostname servicename : String)
    (handler : connect_error_handler_function) (resolve_ec : error_code)
    (hres : resolve_ec.failed = false) (c : endpoint) (cs : List endpoint)
    (net : Nat → error_code) (fuel : Nat) :
    connect_run p hostname servicename handler resolve_ec (c :: cs) net fuel =
      drive net fuel 0
        { p with
          _connecting := true
          _io_service :=
            { pending := p._io_service.pending ++ [operation.connect p._socket.id c cs handler]
              sockets_made := p._io_service.sockets_made
              trace := p._io_service.trace ++
                [action.async_resolve hostname servicename handler,
                 action.async_connect p._socket.id c] } } := by
  unfold connect_run
  have hstep : step (p.connect hostname servicename handler).1
      (event.resolved resolve_ec (c :: cs)) = some
        ({ p with
          _connecting := true
          _io_service :=
            { pending := p._io_service.pending ++ [operation.connect p._socket.id c cs handler]
              sockets_made := p._io_service.sockets_made
              trace := p._io_service.trace ++
                [action.async_resolve hostname servicename handler,
                 action.async_connect p._socket.id c] } }, completion.returned) := by
    simp [step, producer.connect, hc, io_service.issue, take_resolve_last _ hidle, hres,
      producer.handle_resolve, producer.set_pending]
  simp only [hstep]

theorem connect_attempts_append (xs ys : List action) :
    connect_attempts (xs ++ ys) = connect_attempts xs ++ connect_attempts ys := by
  induction xs with
  | nil => rfl
  | cons x xs ih => cases x <;> simp [connect_attempts, ih]

theorem connect_attempts_map (sock : Nat) (es : List endpoint) :
    connect_attempts (es.map (action.async_connect sock)) = es := by
  induction es with
  | nil => rfl
  | cons e es ih => simp [connect_attempts, ih]

theorem up_to_first_success_take (net : Nat → error_code) :
    ∀ (es : List endpoint) (k j : Nat), j < es.length →
      (∀ i, i < j → (net (k + i)).failed = true) →
      ((net (k + j)).failed = false ∨ j + 1 = es.length) →
      up_to_first_success net k es = es.take (j + 1) := by
  intro es
  induction es with
  | nil => intro k j hj; simp at hj
  | cons e es ih =>
    intro k j hj hfail hend
    cases j with
    | zero =>
      cases hk : (net k).failed
      · simp [up_to_first_success, hk]
      · rcases hend with h | h
        · simp [hk] at h
        · have : es = [] := by simpa using h
          subst this
          simp [up_to_first_success, hk]
    | succ j =>
      have hk : (net k).failed = true := by simpa using hfail 0 (by omega)
      have := ih (k + 1) j (by simpa using hj)
        (fun i hi => by
          have := hfail (i + 1) (by omega)
          rwa [show k + 1 + i = k + (i + 1) by omega])
        (by
          rcases hend with h | h
          · left; rwa [show k + 1 + j = k + (j + 1) by omega]
          · right; simpa using h)
      simp [up_to_first_success, hk, this]

/-- A whole connect run on a producer with nothing outstanding, for a resolution that
succeeds with the candidates `c :: cs`: with more fuel than candidates the run ends, after
`j` failed attempts, in the success of attempt `j` or in the failure of the last candidate. -/
theorem connect_run_failover (p : producer) (hidle : outstanding p._io_service.pending = 0)
    (hc : p._connecting = false) (hostname servicename : String)
    (handler : connect_error_handler_function) (resolve_ec : error_code)
    (hres : resolve_ec.failed = false) (c : endpoint) (cs : List endpoint)
    (net : Nat → error_code) :
    ∃ (r : producer × completion) (j : Nat),
      j ≤ cs.length ∧
      (∀ fuel, (c :: cs).length < fuel →
        connect_run p hostname servicename handler resolve_ec (c :: cs) net fuel = some r) ∧
      (∀ i, i < j → (net i).failed = true) ∧
      r.1._socket.id = p._socket.id ∧
      r.1._compression = p._compression ∧
      r.1._io_service.sockets_made = p._io_service.sockets_made ∧
      r.1._connecting = false ∧
      (((net j).failed = false ∧ r.2 = completion.returned ∧
          r.1._connected = true ∧ r.1._socket.peer = (c :: cs)[j]? ∧
          r.1._io_service.pending = p._io_service.pending ++ [operation.read p._socket.id 1] ∧
          r.1._io_service.trace = p._io_service.trace ++
            [action.async_resolve hostname servicename handler] ++
            ((c :: cs).take (j + 1)).map (action.async_connect p._socket.id) ++
            [action.async_read p._socket.id 1]) ∨
       ((net j).failed = true ∧ j = cs.length ∧
          r.1._connected = p._connected ∧ r.1._socket = p._socket ∧
          r.1._io_service.pending = p._io_service.pending ∧
          ((handler = none ∧ r.2 = completion.threw (net j) ∧
              r.1._io_service.trace = p._io_service.trace ++
                [action.async_resolve hostname servicename handler] ++
                (c :: cs).map (action.async_connect p._socket.id)) ∨
           (∃ callee, handler = some callee ∧ r.2 = completion.returned ∧
              r.1._io_service.trace = p._io_service.trace ++
                [action.async_resolve hostname servicename handler] ++
                (c :: cs).map (action.async_connect p._socket.id) ++
                [action.connect_error_handler callee (net j)])))) := by
  obtain ⟨r, j, hj, hdrive, hfail, hid, hcomp, hmade, hconn, hend⟩ :=
    drive_failover net handler p._io_service.pending hidle cs c 0
      { p with
        _connecting := true
        _io_service :=
          { pending := p._io_service.pending ++ [operation.connect p._socket.id c cs handler]
            sockets_made := p._io_service.sockets_made
            trace := p._io_service.trace ++
              [action.async_resolve hostname servicename handler,
               action.async_connect p._socket.id c] } }
      rfl
  simp only [Nat.zero_add] at hfail hend
  refine ⟨r, j, hj, ?_, hfail, hid, hcomp, hmade, hconn, ?_⟩
  · intro fuel hfuel
    rw [connect_run_eq p hidle hc hostname servicename handler resolve_ec hres c cs net fuel]
    exact hdrive fuel (by simpa using hfuel)
  · rcases hend with ⟨h1, h2, h3, h4, h5, h6⟩ | ⟨h1, h2, h3, h4, h5, h6⟩
    · left
      refine ⟨h1, h2, h3, h4, h5, ?_⟩
      rw [h6]
      simp [List.take_succ_cons]
    · right
      refine ⟨h1, h2, h3, h4, h5, ?_⟩
      subst h2
      rcases h6 with ⟨g1, g2, g3⟩ | ⟨callee, g1, g2, g3⟩
      · left
        refine ⟨g1, g2, ?_⟩
        rw [g3]
        simp
      · right
        refine ⟨callee, g1, g2, ?_⟩
        rw [g3]
        simp

/-! ## The failover contract -/

/-- C1: failover success.  For every reachable producer that is neither connected nor
connecting and every successful resolution with `N ≥ 1` candidates of which attempts
`0 .. N-2` fail and attempt `N-1` succeeds, the connect run (`connect`, the resolve
completion, the connect completions) ends for every fuel above `N` in one and the same
state: it returned normally (nothing thrown), `is_connected()` is true, `is_connecting()` is
false, and what the run added to the trace is exactly the `async_resolve`, then one
`async_connect` per candidate in resolver order (none skipped, reordered or repeated), then
one `async_read` of 1 byte on the socket, which is left pending; no error handler call is
in it.  The socket is connected to the last candidate. -/
theorem failover_success (p : producer) (hreach : reachable p)
    (_hconnected : p.is_connected = false) (hconnecting : p.is_connecting = false)
    (hostname servicename : String) (handler : connect_error_handler_function)
    (resolve_ec : error_code) (hres : resolve_ec.failed = false)
    (endpoints : List endpoint) (hN : 1 ≤ endpoints.length) (net : Nat → error_code)
    (hfail : ∀ k, k + 1 < endpoints.length → (net k).failed = true)
    (hok : (net (endpoints.length - 1)).failed = false) :
    ∃ r : producer × completion,
      (∀ fuel, endpoints.length < fuel →
        connect_run p hostname servicename handler resolve_ec endpoints net fuel = some r) ∧
      r.2 = completion.returned ∧
      r.1.is_connected = true ∧ r.1.is_connecting = false ∧
      r.1._io_service.trace = p._io_service.trace ++
        [action.async_resolve hostname servicename handler] ++
        endpoints.map (action.async_connect p._socket.id) ++
        [action.async_read p._socket.id 1] ∧
      r.1._io_service.pending = p._io_service.pending ++ [operation.read p._socket.id 1] ∧
      r.1._socket = { id := p._socket.id, peer := endpoints.getLast? } := by
  cases endpoints with
  | nil => simp at hN
  | cons c cs =>
    obtain ⟨r, j, hj, hrun, _, hid, _, _, hconn, hend⟩ :=
      connect_run_failover p (reachable_idle p hreach hconnecting) hconnecting hostname
        servicename handler resolve_ec hres c cs net
    rcases hend with ⟨h1, h2, h3, h4, h5, h6⟩ | ⟨h1, h2, _⟩
    · have hjeq : j = cs.length := by
        rcases Nat.lt_or_ge j cs.length with hlt | hge
        · have := hfail j (by simpa using hlt)
          simp [h1] at this
        · omega
      subst hjeq
      refine ⟨r, hrun, h2, h3, hconn, ?_, h5, ?_⟩
      · rw [h6, List.take_of_length_le (by simp)]
      · have hpeer : r.1._socket.peer = (c :: cs).getLast? := by
          rw [h4, List.getLast?_eq_getElem?]; simp
        cases hs : r.1._socket with
        | mk sid speer =>
          rw [hs] at hid hpeer
          simp only at hid hpeer
          rw [hid, hpeer]
    · subst h2
      simp [h1] at hok

/-- Witness of C1: two candidates, the first refused, the second accepted. -/
theorem failover_success_witness :
    reachable sample_producer ∧ sample_producer.is_connected = false ∧
    sample_producer.is_connecting = false ∧
    ∃ r : producer × completion,
      (∀ fuel, [broker_a, broker_b].length < fuel →
        connect_run sample_producer "broker" "9092" (some 7) error_code.success
          [broker_a, broker_b] second_succeeds fuel = some r) ∧
      r.2 = completion.returned ∧
      r.1.is_connected = true ∧ r.1.is_connecting = false ∧
      r.1._io_service.trace = sample_producer._io_service.trace ++
        [action.async_resolve "broker" "9092" (some 7)] ++
        [broker_a, broker_b].map (action.async_connect sample_producer._socket.id) ++
        [action.async_read sample_producer._socket.id 1] ∧
      r.1._io_service.pending =
        sample_producer._io_service.pending ++ [operation.read sample_producer._socket.id 1] ∧
      r.1._socket =
        { id := sample_producer._socket.id, peer := [broker_a, broker_b].getLast? } :=
  ⟨reachable.init 0 sample_io rfl, rfl, rfl,
    failover_success sample_producer (reachable.init 0 sample_io rfl) rfl rfl "broker" "9092"
      (some 7) error_code.success rfl [broker_a, broker_b] (by decide) second_succeeds
      (by
        intro k hk
        have hk0 : k = 0 := by simp at hk; omega
        subst hk0
        rfl)
      rfl⟩

/-- C2: exhaustion.  For every reachable producer that is neither connected nor connecting
and every successful resolution with `N ≥ 1` candidates whose attempts all fail, the connect
run ends for every fuel above `N` in one and the same state, with `is_connected()` false and
`is_connecting()` false, the socket and the pending operations as before, and one
`async_connect` per candidate in the trace.  With a handler supplied the run returns
normally and the trace ends in exactly one call of that handler, with the error code of the
last attempt `N-1`; with the empty handler no handler call is in the trace and a
`system_error` with the error code of the last attempt is thrown, `_connecting` being
already false in the state it is thrown from. -/
theorem failover_exhausted (p : producer) (hreach : reachable p)
    (hconnected : p.is_connected = false) (hconnecting : p.is_connecting = false)
    (hostname servicename : String) (handler : connect_error_handler_function)
    (resolve_ec : error_code) (hres : resolve_ec.failed = false)
    (endpoints : List endpoint) (hN : 1 ≤ endpoints.length) (net : Nat → error_code)
    (hfail : ∀ k, k < endpoints.length → (net k).failed = true) :
    ∃ r : producer × completion,
      (∀ fuel, endpoints.length < fuel →
        connect_run p hostname servicename handler resolve_ec endpoints net fuel = some r) ∧
      r.1.is_connected = false ∧ r.1.is_connecting = false ∧
      r.1._socket = p._socket ∧
      r.1._io_service.pending = p._io_service.pending ∧
      (∀ callee, handler = some callee →
        r.2 = completion.returned ∧
        r.1._io_service.trace = p._io_service.trace ++
          [action.async_resolve hostname servicename handler] ++
          endpoints.map (action.async_connect p._socket.id) ++
          [action.connect_error_handler callee (net (endpoints.length - 1))]) ∧
      (handler = none →
        r.2 = completion.threw (net (endpoints.length - 1)) ∧
        r.1._io_service.trace = p._io_service.trace ++
          [action.async_resolve hostname servicename handler] ++
          endpoints.map (action.async_connect p._socket.id)) := by
  cases endpoints with
  | nil => simp at hN
  | cons c cs =>
    obtain ⟨r, j, hj, hrun, _, _, _, _, hconn, hend⟩ :=
      connect_run_failover p (reachable_idle p hreach hconnecting) hconnecting hostname
        servicename handler resolve_ec hres c cs net
    rcases hend with ⟨h1, _⟩ | ⟨_, h2, h3, h4, h5, h6⟩
    · have := hfail j (by simp; omega)
      simp [h1] at this
    · subst h2
      refine ⟨r, hrun, ?_, hconn, h4, h5, ?_, ?_⟩
      · show r.1._connected = false
        rw [h3]; exact hconnected
      · intro callee hcallee
        rcases h6 with ⟨g1, _, _⟩ | ⟨callee1, g1, g2, g3⟩
        · rw [g1] at hcallee; cases hcallee
        · rw [g1] at hcallee
          cases hcallee
          exact ⟨g2, by simpa using g3⟩
      · intro hnone
        rcases h6 with ⟨_, g2, g3⟩ | ⟨callee1, g1, _, _⟩
        · exact ⟨by simpa using g2, g3⟩
        · rw [g1] at hnone; cases hnone

/-- Witness of C2: two candidates, both refused, with a handler supplied. -/
theorem failover_exhausted_witness :
    reachable sample_producer ∧ sample_producer.is_connected = false ∧
    sample_producer.is_connecting = false ∧
    ∃ r : producer × completion,
      (∀ fuel, [broker_a, broker_b].length < fuel →
        connect_run sample_producer "broker" "9092" (some 7) error_code.success
          [broker_a, broker_b] all_refused fuel = some r) ∧
      r.1.is_connected = false ∧ r.1.is_connecting = false ∧
      r.1._socket = sample_producer._socket ∧
      r.1._io_service.pending = sample_producer._io_service.pending ∧
      (∀ callee, some 7 = some callee →
        r.2 = completion.returned ∧
        r.1._io_service.trace = sample_producer._io_service.trace ++
          [action.async_resolve "broker" "9092" (some 7)] ++
          [broker_a, broker_b].map (action.async_connect sample_producer._socket.id) ++
          [action.connect_error_handler callee
            (all_refused ([broker_a, broker_b].length - 1))]) ∧
      (some 7 = none →
        r.2 = completion.threw (all_refused ([broker_a, broker_b].length - 1)) ∧
        r.1._io_service.trace = sample_producer._io_service.trace ++
          [action.async_resolve "broker" "9092" (some 7)] ++
          [broker_a, broker_b].map (action.async_connect sample_producer._socket.id)) :=
  ⟨reachable.init 0 sample_io rfl, rfl, rfl,
    failover_exhausted sample_producer (reachable.init 0 sample_io rfl) rfl rfl "broker" "9092"
      (some 7) error_code.success rfl [broker_a, broker_b] (by decide) all_refused
      (fun _ _ => rfl)⟩

/-- C10: first success wins and the failover loop terminates.  For every reachable producer
that is not connecting, every successful resolution with a non-empty candidate list and
every assignment `net` of outcomes to the attempts, the connect run ends for every fuel
above the number of candidates in one and the same state; the connect attempts the run added
to the trace are exactly the prefix of the resolver list up to and including the first
candidate whose attempt succeeds (the whole list if none does), in that order and each once;
at the end no resolve or connect is outstanding and `is_connecting()` is false.  Moreover in
every reachable state at most one resolve or connect is outstanding (one attempt in flight
at a time), and a connect completion without error adds no connect attempt to the trace. -/
theorem failover_first_success_wins (p : producer) (hreach : reachable p)
    (hconnecting : p.is_connecting = false)
    (hostname servicename : String) (handler : connect_error_handler_function)
    (resolve_ec : error_code) (hres : resolve_ec.failed = false)
    (endpoints : List endpoint) (hN : endpoints ≠ []) (net : Nat → error_code) :
    (∃ r : producer × completion,
      (∀ fuel, endpoints.length < fuel →
        connect_run p hostname servicename handler resolve_ec endpoints net fuel = some r) ∧
      connect_attempts r.1._io_service.trace =
        connect_attempts p._io_service.trace ++ up_to_first_success net 0 endpoints ∧
      outstanding r.1._io_service.pending = 0 ∧
      r.1.is_connecting = false) ∧
    (∀ q, reachable q → outstanding q._io_service.pending ≤ 1) ∧
    (∀ q ec r, ec.failed = false → step q (event.connected ec) = some r →
      connect_attempts r.1._io_service.trace = connect_attempts q._io_service.trace) := by
  refine ⟨?_, ?_, ?_⟩
  · cases endpoints with
    | nil => exact absurd rfl hN
    | cons c cs =>
      have hidle := reachable_idle p hreach hconnecting
      obtain ⟨r, j, hj, hrun, hfail, _, _, _, hconn, hend⟩ :=
        connect_run_failover p hidle hconnecting hostname servicename handler resolve_ec hres
          c cs net
      have hupto : ((net j).failed = false ∨ j + 1 = (c :: cs).length) →
          up_to_first_success net 0 (c :: cs) = (c :: cs).take (j + 1) := fun h =>
        up_to_first_success_take net (c :: cs) 0 j (by simp; omega)
          (fun i hi => by simpa using hfail i hi) (by simpa using h)
      rcases hend with ⟨h1, _, _, _, h5, h6⟩ | ⟨_, h2, _, _, h5, h6⟩
      · refine ⟨r, hrun, ?_, ?_, hconn⟩
        · rw [h6, hupto (Or.inl h1), connect_attempts_append, connect_attempts_append,
            connect_attempts_append, connect_attempts_map]
          simp [connect_attempts]
        · rw [h5]
          simp [outstanding_append, hidle, operation.is_setup]
      · refine ⟨r, hrun, ?_, ?_, hconn⟩
        · rw [hupto (Or.inr (by simp [h2])), h2]
          rw [List.take_of_length_le (by simp)]
          rcases h6 with ⟨_, _, g3⟩ | ⟨callee, _, _, g3⟩
          · rw [g3, connect_attempts_append, connect_attempts_append, connect_attempts_map]
            simp [connect_attempts]
          · rw [g3, connect_attempts_append, connect_attempts_append, connect_attempts_append,
              connect_attempts_map]
            simp [connect_attempts]
        · rw [h5]; exact hidle
  · intro q hq
    have := (reachable_invariant q hq).1
    cases hc : q._connecting <;> simp [hc] at this <;> omega
  · intro q ec r hec hstep
    simp only [step] at hstep
    cases ht : take_connect q._io_service.pending with
    | none => simp [ht] at hstep
    | some fr =>
      obtain ⟨⟨sock, target, next, handler1⟩, rest⟩ := fr
      simp only [ht, Option.some.injEq] at hstep
      subst hstep
      by_cases hsock : sock = q._socket.id <;>
        simp [producer.handle_connect, hec, producer.set_pending, io_service.issue, hsock,
          connect_attempts_append, connect_attempts]

/-- Witness of C10: two candidates, the first refused, the second accepted. -/
theorem failover_first_success_wins_witness :
    reachable sample_producer ∧ sample_producer.is_connecting = false ∧
    (∃ r : producer × completion,
      (∀ fuel, [broker_a, broker_b].length < fuel →
        connect_run sample_producer "broker" "9092" none error_code.success
          [broker_a, broker_b] second_succeeds fuel = some r) ∧
      connect_attempts r.1._io_service.trace =
        connect_attempts sample_producer._io_service.trace ++
          up_to_first_success second_succeeds 0 [broker_a, broker_b] ∧
      outstanding r.1._io_service.pending = 0 ∧
      r.1.is_connecting = false) :=
  ⟨reachable.init 0 sample_io rfl, rfl,
    (failover_first_success_wins sample_producer (reachable.init 0 sample_io rfl) rfl
      "broker" "9092" none error_code.success rfl [broker_a, broker_b] (by simp)
      second_succeeds).1⟩

/-! ## Closing -/

/-- C6: `close()` on a reachable producer whose `_connecting` is false (connected or not)
returns true, leaves `is_connected()` and `is_connecting()` false, closes the socket it owned
and replaces it with a newly made one, of another identity and connected to nobody, and
changes nothing else.  A second `close` returns true again with the same flags.  A `connect`
right after the `close` returns true, and for every successful resolution in which some
candidate's attempt succeeds the connect run ends, returning normally, with
`is_connected()` true and `is_connecting()` false, on the new socket, connected to one of the
candidates. -/
theorem close_when_not_connecting (p : producer) (hreach : reachable p)
    (hconnecting : p.is_connecting = false) :
    p.close.2 = true ∧
    p.close.1.is_connected = false ∧ p.close.1.is_connecting = false ∧
    p.close.1._socket = { id := p._io_service.sockets_made, peer := none } ∧
    p.close.1._socket.id ≠ p._socket.id ∧
    p.close.1._io_service.trace = p._io_service.trace ++
      [action.socket_close p._socket.id, action.socket_new p._io_service.sockets_made] ∧
    p.close.1._io_service.pending = p._io_service.pending ∧
    (p.close.1.close.2 = true ∧ p.close.1.close.1.is_connected = false ∧
      p.close.1.close.1.is_connecting = false) ∧
    (∀ hostname servicename handler,
      (p.close.1.connect hostname servicename handler).2 = true) ∧
    (∀ hostname servicename handler resolve_ec endpoints net,
      resolve_ec.failed = false →
      (∃ k, k < endpoints.length ∧ (net k).failed = false) →
      ∃ r : producer × completion,
        (∀ fuel, endpoints.length < fuel →
          connect_run p.close.1 hostname servicename handler resolve_ec endpoints net fuel
            = some r) ∧
        r.2 = completion.returned ∧
        r.1.is_connected = true ∧ r.1.is_connecting = false ∧
        r.1._socket.id = p.close.1._socket.id ∧
        ∃ target, target ∈ endpoints ∧ r.1._socket.peer = some target) := by
  have hc : p._connecting = false := hconnecting
  obtain ⟨hidle, hsock⟩ := reachable_invariant p hreach
  simp only [hc] at hidle
  have hclose : p.close = ({ p with
      _connected := false
      _io_service :=
        { pending := p._io_service.pending
          sockets_made := p._io_service.sockets_made + 1
          trace := p._io_service.trace ++
            [action.socket_close p._socket.id, action.socket_new p._io_service.sockets_made] }
      _socket := { id := p._io_service.sockets_made, peer := none } }, true) := by
    simp [producer.close, hc, io_service.log, io_service.new_socket]
  rw [hclose]
  refine ⟨rfl, rfl, hc, rfl, ?_, rfl, rfl, ?_, ?_, ?_⟩
  · show p._io_service.sockets_made ≠ p._socket.id
    omega
  · simp [producer.close, hc, producer.is_connected, producer.is_connecting]
  · intro hostname servicename handler
    simp [producer.connect, hc]
  · intro hostname servicename handler resolve_ec endpoints net hres hsome
    obtain ⟨k, hk, hknet⟩ := hsome
    cases endpoints with
    | nil => simp at hk
    | cons c cs =>
      obtain ⟨r, j, hj, hrun, hfail, hid, _, _, hconn, hend⟩ :=
        connect_run_failover
          { p with
            _connected := false
            _io_service :=
              { pending := p._io_service.pending
                sockets_made := p._io_service.sockets_made + 1
                trace := p._io_service.trace ++
                  [action.socket_close p._socket.id,
                   action.socket_new p._io_service.sockets_made] }
            _socket := { id := p._io_service.sockets_made, peer := none } }
          (by simpa using hidle) hc hostname servicename handler resolve_ec hres c cs net
      rcases hend with ⟨_, h2, h3, h4, _, _⟩ | ⟨h1, h2, _⟩
      · have hjlt : j < (c :: cs).length := by simp; omega
        refine ⟨r, hrun, h2, h3, hconn, hid, (c :: cs)[j], List.getElem_mem hjlt, ?_⟩
        rw [h4, List.getElem?_eq_getElem hjlt]
      · exfalso
        subst h2
        rcases Nat.lt_or_ge k cs.length with hlt | hge
        · have := hfail k hlt
          simp [hknet] at this
        · have hkeq : k = cs.length := by simp at hk; omega
          subst hkeq
          simp [hknet] at h1

/-- Witness of C6: closing a connected producer. -/
theorem close_when_not_connecting_witness :
    sample_connected.is_connected = true ∧ sample_connected.is_connecting = false ∧
    sample_connected.close.2 = true ∧
    sample_connected.close.1.is_connected = false ∧
    sample_connected.close.1.is_connecting = false ∧
    sample_connected.close.1._socket =
      { id := sample_connected._io_service.sockets_made, peer := none } ∧
    sample_connected.close.1._socket.id ≠ sample_connected._socket.id :=
  have hreach : reachable sample_connected :=
    reachable.next _ (event.connected error_code.success) _
      (reachable.next _ (event.resolved error_code.success [broker_a]) _
        (reachable.next _ (event.connect "broker" "9092" none) _
          (reachable.init 0 sample_io rfl) rfl) rfl) rfl
  have key := close_when_not_connecting sample_connected hreach rfl
  ⟨rfl, rfl, key.1, key.2.1, key.2.2.1, key.2.2.2.1, key.2.2.2.2.1⟩

/-! ## The two flags -/

/-- One event keeps `_connecting` and `_connected` from being both true, unless the event is
a `connect` called on a connected producer. -/
theorem step_keeps_flags_apart (p : producer) (e : event) (r : producer × completion)
    (hstep : step p e = some r)
    (hcall : ∀ hostname servicename error_handler,
      e = event.connect hostname servicename error_handler → p._connected = false)
    (hp : ¬ (p._connecting = true ∧ p._connected = true)) :
    ¬ (r.1._connecting = true ∧ r.1._connected = true) := by
  cases e with
  | connect hostname servicename handler =>
    have hoff := hcall hostname servicename handler rfl
    simp only [step, Option.some.injEq] at hstep
    subst hstep
    cases hc : p._connecting <;> simp [producer.connect, hc, hoff]
  | close =>
    simp only [step, Option.some.injEq] at hstep
    subst hstep
    cases hc : p._connecting <;> simp [producer.close, hc]
    simpa [hc] using hp
  | resolved ec endpoints =>
    simp only [step] at hstep
    cases ht : take_resolve p._io_service.pending with
    | none => simp [ht] at hstep
    | some fr =>
      obtain ⟨handler, rest⟩ := fr
      simp only [ht] at hstep
      split at hstep
      · simp at hstep
      · simp only [Option.some.injEq] at hstep
        subst hstep
        cases hf : ec.failed
        · cases endpoints with
          | nil => simpa [producer.handle_resolve, hf, producer.set_pending] using hp
          | cons c cs =>
            simpa [producer.handle_resolve, hf, producer.set_pending, io_service.issue]
              using hp
        · cases handler <;>
            simp [producer.handle_resolve, hf, producer.set_pending, io_service.log]
  | connected ec =>
    simp only [step] at hstep
    cases ht : take_connect p._io_service.pending with
    | none => simp [ht] at hstep
    | some fr =>
      obtain ⟨⟨sock, target, next, handler⟩, rest⟩ := fr
      simp only [ht, Option.some.injEq] at hstep
      subst hstep
      cases hf : ec.failed
      · by_cases hsock : sock = p._socket.id <;>
          simp [producer.handle_connect, hf, producer.set_pending, io_service.issue, hsock]
      · cases next with
        | nil =>
          cases handler <;>
            simp [producer.handle_connect, hf, producer.set_pending, io_service.log]
        | cons c cs =>
          simpa [producer.handle_connect, producer.handle_resolve, success_not_failed, hf,
            producer.set_pending, io_service.issue] using hp
  | written ec bytes msg data handler =>
    simp only [step, Option.some.injEq] at hstep
    subst hstep
    cases hf : ec.failed <;> cases handler <;>
      simpa [producer.handle_write_request, hf, io_service.log] using hp

/-- C3 as stated fails: a freshly constructed producer on which `connect` is called, the
resolution completes with one candidate, the attempt on it succeeds, and `connect` is called
again, is in a reachable state with `_connecting` and `_connected` both true. -/
theorem flags_both_true_after_reconnect :
    reachable sample_reconnecting ∧
    sample_reconnecting.is_connecting = true ∧ sample_reconnecting.is_connected = true :=
  ⟨reachable.next _ (event.connect "broker" "9092" none) _
    (reachable.next _ (event.connected error_code.success) _
      (reachable.next _ (event.resolved error_code.success [broker_a]) _
        (reachable.next _ (event.connect "broker" "9092" none) _
          (reachable.init 0 sample_io rfl) rfl) rfl) rfl) rfl,
   rfl, rfl⟩

/-- C3, amended: in every state reachable from a freshly constructed producer by any sequence
of `connect`, `close` and completion events in which `connect` is never called while
`_connected` is true, the flags `_connecting` and `_connected` are never both true. -/
theorem flags_never_both_true (p : producer) (h : reachable_closed_first p) :
    ¬ (p.is_connecting = true ∧ p.is_connected = true) := by
  induction h with
  | init compression io hio => simp [producer.construct, producer.is_connecting]
  | next p e r _ hcall hstep ih => exact step_keeps_flags_apart p e r hstep hcall ih

/-- Witness of the amended C3 on the connected producer. -/
theorem flags_never_both_true_witness :
    reachable_closed_first sample_connected ∧
    ¬ (sample_connected.is_connecting = true ∧ sample_connected.is_connected = true) :=
  have hreach : reachable_closed_first sample_connected :=
    reachable_closed_first.next _ (event.connected error_code.success) _
      (reachable_closed_first.next _ (event.resolved error_code.success [broker_a]) _
        (reachable_closed_first.next _ (event.connect "broker" "9092" none) _
          (reachable_closed_first.init 0 sample_io rfl) (fun _ _ _ _ => rfl) rfl)
        (fun _ _ _ h => by cases h) rfl)
      (fun _ _ _ h => by cases h) rfl
  ⟨hreach, flags_never_both_true sample_connected hreach⟩

end kafka
